import Mathlib

/-!
Verification of the polymer TUI composition framework: a shallow embedding of
the navigation stack (`Chain`, src/chain.go), the two-slot router
(`Router`, src/router/router.go and src/router/multi/router.go), the
primary/override router (`Auto`, src/router/auto/auto.go), the lifecycle
`Lens` with its `resolve` functions (src/lens.go, src/trace/lens.go), and
theorems checking the spec's claims about them.

Conventions of the embedding:
  - A Go interface value that may be nil is an `Option`; the component type
    behind the interface is a type parameter.
  - A `tea.Cmd` is `Option κ` for an opaque command type `κ` (nil = `none`);
    where a function can emit a command of its own (the chain-empty error,
    the unknown-slot broadcast) a dedicated constructor or a distinguished
    parameter represents it.
  - A component's `Update`/`Init`/`View` methods are passed in as explicit
    function parameters (`updF`, `initF`, `view`), since a Go interface
    dispatch is a function the container does not inspect.
  - Go panics (slice index out of range) surface as `none` of an `Option`
    result.
-/

namespace Polymer

/-! ## Navigation stack: src/chain.go -/

/-- Commands a `Chain.Update` can return: the chain-empty error effect
(`Error(ErrChainEmpty)`, src/chain.go line 96) or a command produced by an
atom (its `Update` or its optional `Init`). -/
inductive ChainCmd (K : Type) where
  | errorChainEmpty : ChainCmd K
  | fromAtom (k : K) : ChainCmd K
deriving DecidableEq, Repr

/-- Structural messages of the chain (`PushMsg`, `PopMsg`, `ReplaceMsg`,
`ResetMsg`, src/chain.go lines 16-21) together with any non-structural
message, which the Go code reaches in the post-switch branch of `Update`. -/
inductive ChainMsg (C E : Type) where
  | pushMsg (state : Option C)
  | popMsg
  | replaceMsg (state : Option C)
  | resetMsg (state : Option C)
  | other (e : E)
deriving DecidableEq, Repr

/-- Type `Chain` (src/chain.go lines 9-13): a stack of atoms (top is the last
element of the slice) and a name. -/
structure Chain (C : Type) where
  stack : List C
  name : String
deriving DecidableEq, Repr

/-- Method `Chain.Active` (src/chain.go lines 44-49): the top of the stack, nil when
the stack is empty. -/
def Chain.Active {C : Type} (h : Chain C) : Option C :=
  h.stack.getLast?

/-- Method `Chain.Peek` (src/chain.go lines 53-58): the atom `n` positions below the
top; nil when `n` is out of bounds. `n` is a Go `int`, so it ranges over `Int`.
The same code appears as `Stack.Peek` in src/atom/stack.go lines 36-42. -/
def Chain.Peek {C : Type} (h : Chain C) (n : Int) : Option C :=
  if n < 0 ∨ (h.stack.length : Int) ≤ n then none
  else h.stack[(h.stack.length - 1 - n.toNat)]?

/-- Method `Chain.Depth` (src/chain.go lines 61-63). -/
def Chain.Depth {C : Type} (h : Chain C) : Nat :=
  h.stack.length

/-- Method `Chain.push` (src/chain.go lines 113-119): appends, no-op on nil. -/
def Chain.push {C : Type} (h : Chain C) (state : Option C) : Chain C :=
  match state with
  | none => h
  | some s => { h with stack := h.stack ++ [s] }

/-- Method `Chain.pop` (src/chain.go lines 122-130): no-op returning nil on an empty
stack, otherwise removes and returns the top element. The only guard is
`len(h.stack) == 0`, so popping a 1-element stack empties it. -/
def Chain.pop {C : Type} (h : Chain C) : Chain C × Option C :=
  if h.stack.isEmpty then (h, none)
  else ({ h with stack := h.stack.dropLast }, h.stack.getLast?)

/-- Method `Chain.replace` (src/chain.go lines 133-143): no-op on nil; overwrites the
top element when the stack is non-empty, otherwise appends. -/
def Chain.replace {C : Type} (h : Chain C) (atom : Option C) : Chain C :=
  match atom with
  | none => h
  | some a =>
    if h.stack.isEmpty then { h with stack := h.stack ++ [a] }
    else { h with stack := h.stack.dropLast ++ [a] }

/-- Method `Chain.reset` (src/chain.go lines 147-154): `[atom]`, or `[stack[0]]` when
`atom` is nil. On nil with an empty stack the Go code indexes `h.stack[0]` and
panics; that case is `none`. -/
def Chain.reset {C : Type} (h : Chain C) (atom : Option C) : Option (Chain C) :=
  match atom with
  | none =>
    match h.stack.head? with
    | none => none
    | some seed => some { h with stack := [seed] }
  | some a => some { h with stack := [a] }

/-- Function `OptionalInit` (src/atom.go lines 26-31) applied to a possibly-nil atom:
the atom's `Init` command when the atom is present and implements
`Initializer`, nil otherwise. `initF` returns `none` for an atom that does
not implement `Initializer`. -/
def OptionalInit {C K : Type} (initF : C → Option K) : Option C → Option K
  | none => none
  | some c => initF c

/-- Method `Chain.Update` (src/chain.go lines 76-101): structural messages mutate the
stack and chain `OptionalInit` of the new active atom; a non-structural
message errors on an empty stack and is otherwise forwarded to the active
atom, whose next state replaces the top via `Chain.replace`. The outer
`Option` is `none` exactly when the Go code panics (reset of nil on an empty
stack). -/
def Chain.Update {C E K : Type} (initF : C → Option K)
    (updF : C → E → Option C × Option K)
    (h : Chain C) (msg : ChainMsg C E) :
    Option (Chain C × Option (ChainCmd K)) :=
  match msg with
  | .pushMsg s =>
    let h1 := h.push s
    some (h1, (OptionalInit initF h1.Active).map ChainCmd.fromAtom)
  | .replaceMsg s =>
    let h1 := h.replace s
    some (h1, (OptionalInit initF h1.Active).map ChainCmd.fromAtom)
  | .resetMsg s =>
    match h.reset s with
    | none => none
    | some h1 => some (h1, (OptionalInit initF h1.Active).map ChainCmd.fromAtom)
  | .popMsg =>
    let h1 := (h.pop).1
    some (h1, (OptionalInit initF h1.Active).map ChainCmd.fromAtom)
  | .other e =>
    match h.Active with
    | none => some (h, some ChainCmd.errorChainEmpty)
    | some current =>
      let nc := updF current e
      some (h.replace nc.1, nc.2.map ChainCmd.fromAtom)

/-! ## Two-slot router: src/router/router.go, src/router/multi/router.go -/

/-- Type `Slot` (src/router/routable.go lines 17-26): `SlotSkip`, `SlotT`, `SlotU`,
`SlotV`. `v` also stands for every other out-of-range value of the Go `uint8`,
since `Route` and `Render` treat all non-T, non-U values alike. -/
inductive Slot where
  | skip
  | t
  | u
  | v
deriving DecidableEq, Repr

/-- Type `Router` (src/router/router.go lines 9-15): two possibly-nil slots and a
target. The tracer field carries no routing state and is omitted. -/
structure Router (A B : Type) where
  SlotT : Option A
  SlotU : Option B
  target : Slot
deriving DecidableEq, Repr

/-- Method `Router.Route` (src/router/router.go lines 83-104, identical in
src/router/multi/router.go lines 122-145): forward to the targeted slot when
it is present; fall through to `(r, nil)` when the targeted slot is nil; the
default branch (skip or any unknown slot) returns
`util.Broadcast(ErrUnknownSlot)`, a non-nil command represented by the
distinguished parameter `bcastUnknownSlot`. -/
def Router.Route {A B E K : Type} (updT : A → E → A × Option K)
    (updU : B → E → B × Option K) (bcastUnknownSlot : K)
    (r : Router A B) (msg : E) : Router A B × Option K :=
  match r.target with
  | .t =>
    match r.SlotT with
    | some t0 =>
      let p := updT t0 msg
      ({ r with SlotT := some p.1 }, p.2)
    | none => (r, none)
  | .u =>
    match r.SlotU with
    | some u0 =>
      let p := updU u0 msg
      ({ r with SlotU := some p.1 }, p.2)
    | none => (r, none)
  | _ => (r, some bcastUnknownSlot)

/-! ## Primary/override router: src/router/auto/auto.go -/

/-- Type `Slot` of the auto router (src/router/auto/auto.go lines 12-19):
`SlotInvalid`, `SlotPrimary`, `SlotOverride`. -/
inductive AutoSlot where
  | slotInvalid
  | slotPrimary
  | slotOverride
deriving DecidableEq, Repr

/-- Type `Auto` (src/router/auto/auto.go lines 24-28): a primary and an optional
override slot. The tracer field carries no routing state and is omitted. -/
structure Auto (T : Type) where
  primary : Option T
  override : Option T
deriving DecidableEq, Repr

/-- Method `Auto.Active` (src/router/auto/auto.go lines 60-69, identical in
src/router/auto.go lines 58-67): override if present, else primary if
present, else invalid. -/
def Auto.Active {T : Type} (a : Auto T) : AutoSlot :=
  if a.override.isSome then AutoSlot.slotOverride
  else if a.primary.isSome then AutoSlot.slotPrimary
  else AutoSlot.slotInvalid

/-! ## Lifecycle lens: src/trace/lens.go (same shape as src/lens.go) -/

/-- Type `TraceLevel` (src/trace/lens.go lines 35-40). -/
inductive TraceLevel where
  | levelTrace
  | levelDebug
  | levelInfo
  | levelWarn
deriving DecidableEq, Repr

/-- Messages as `Lens.Update` classifies them (src/trace/lens.go lines
112-122): an error value, a `TraceMsg`, or anything else. -/
inductive LensMsg (E : Type) where
  | errMsg (err : String)
  | traceMsg (level : TraceLevel) (msg : String)
  | other (e : E)
deriving DecidableEq, Repr

/-- Type `Lens` (src/trace/lens.go lines 9-17): a wrapped model and six optional
hooks. A Go hook returns nothing; its only action is an external side effect,
modelled as a value of an opaque observation type `Ω` that the embedding
collects. -/
structure Lens (M K E Ω : Type) where
  Model : M
  OnInit : Option (M → Option K → Ω)
  BeforeUpdate : Option (M → LensMsg E → Ω)
  AfterUpdate : Option (M → Option K → Ω)
  OnView : Option (M → String → Ω)
  OnError : Option (M → String → Ω)
  OnTrace : Option (M → TraceLevel → String → Ω)

/-- Observations of running an optional hook: none when the hook is unset. -/
def hookRun {F Ω : Type} : Option F → (F → Ω) → List Ω
  | none, _ => []
  | some f, app => [app f]

/-- Method `Lens.Update` (src/trace/lens.go lines 110-133): dispatch the error/trace
hooks on matching messages, run `BeforeUpdate`, delegate to the wrapped
model's update, run `AfterUpdate` on the result, store the next model and
return the delegate's command unchanged. `res` is the `resolve_atom` the
hooks see; `upd` the wrapped model's `Update`. The third component collects
the hooks' observations in invocation order. -/
def Lens.Update {M K E Ω : Type} (upd : M → LensMsg E → M × Option K)
    (res : M → M) (l : Lens M K E Ω) (msg : LensMsg E) :
    Lens M K E Ω × Option K × List Ω :=
  let errObs : List Ω :=
    match msg with
    | .errMsg err => hookRun l.OnError (fun f => f (res l.Model) err)
    | .traceMsg lvl m => hookRun l.OnTrace (fun f => f (res l.Model) lvl m)
    | .other _ => []
  let beforeObs := hookRun l.BeforeUpdate (fun f => f (res l.Model) msg)
  let p := upd l.Model msg
  let afterObs := hookRun l.AfterUpdate (fun f => f (res p.1) p.2)
  ({ l with Model := p.1 }, p.2, errObs ++ beforeObs ++ afterObs)

/-- Method `Lens.View` (src/trace/lens.go lines 136-143): render the wrapped model,
run `OnView` on the rendered string, return the string unchanged. -/
def Lens.View {M K E Ω : Type} (view : M → String) (res : M → M)
    (l : Lens M K E Ω) : String × List Ω :=
  let rendered := view l.Model
  (rendered, hookRun l.OnView (fun f => f (res l.Model) rendered))

/-! ## Resolve: src/trace/lens.go `resolve_atom` and src/lens.go `resolve` -/

/-- The `atom.Model` values `resolve_atom` (src/trace/lens.go lines 146-157)
distinguishes: a plain model, a nil interface value, a `*atom.Chain` (with
its stack, top last), an `atom.AtomDecorator`, and a `*trace.Lens`. -/
inductive TModel (M : Type) where
  | leaf (m : M)
  | nilModel
  | chain (stack : List (TModel M))
  | deco (inner : TModel M)
  | lensW (inner : TModel M)

/-- Helper for `Chain.Active` as `resolve_atom` reaches it: the last element of the
stack, nil when empty. -/
def TModel.activeOf {M : Type} : List (TModel M) → TModel M
  | [] => TModel.nilModel
  | [x] => x
  | _ :: x :: xs => TModel.activeOf (x :: xs)

theorem TModel.sizeOf_activeOf {M : Type} (l : List (TModel M)) :
    sizeOf (TModel.activeOf l) ≤ sizeOf l := by
  induction l with
  | nil => simp [TModel.activeOf]
  | cons x xs ih =>
    cases xs with
    | nil =>
      simp only [TModel.activeOf, List.cons.sizeOf_spec, List.nil.sizeOf_spec]
      omega
    | cons y ys =>
      simp only [TModel.activeOf] at ih ⊢
      simp only [List.cons.sizeOf_spec] at ih ⊢
      omega

/-- Function `resolve_atom` (src/trace/lens.go lines 146-157): recursively resolves an
atom through chains (to their active element), decorators and lenses. -/
def TModel.resolve_atom {M : Type} : TModel M → TModel M
  | .chain stk => TModel.resolve_atom (TModel.activeOf stk)
  | .deco inner => TModel.resolve_atom inner
  | .lensW inner => TModel.resolve_atom inner
  | .leaf m => .leaf m
  | .nilModel => .nilModel
termination_by x => sizeOf x
decreasing_by
  · have := TModel.sizeOf_activeOf (M := M) stk
    simp only [TModel.chain.sizeOf_spec]
    omega
  · simp only [TModel.deco.sizeOf_spec]
    omega
  · simp only [TModel.lensW.sizeOf_spec]
    omega

/-- The `tea.Model` values `resolve` (src/lens.go lines 144-160)
distinguishes: a plain model, a `Lens` (whose embedded `Atom` carries an id),
and a `Modal` whose `GetCurrent` either returns the modal itself
(`modalSelf`) or another value (`modal`). Every value carries the `Id()` of
its `Atomic` identity (ids come from a counter but `OverrideID` can force
any value, so distinct values may share an id). -/
inductive PModel (M : Type) where
  | leaf (id : Nat) (m : M)
  | lensP (id : Nat) (inner : PModel M)
  | modalSelf (id : Nat)
  | modal (id : Nat) (current : PModel M)
deriving DecidableEq, Repr

/-- The `Id()` of a `PModel` value. -/
def PModel.idOf {M : Type} : PModel M → Nat
  | .leaf i _ => i
  | .lensP i _ => i
  | .modalSelf i => i
  | .modal i _ => i

/-- Function `resolve` (src/lens.go lines 144-160): on a `Modal`, recurse into
`GetCurrent()` only when its id differs from the modal's own id, otherwise
return `GetCurrent()` as is; on a `Lens`, recurse into the wrapped model;
return anything else as is. -/
def PModel.resolve {M : Type} : PModel M → PModel M
  | .modalSelf i => .modalSelf i
  | .modal i c => if c.idOf ≠ i then PModel.resolve c else c
  | .lensP _ inner => PModel.resolve inner
  | .leaf i m => .leaf i m

/-- A value is modal-good when every `Modal` in it whose `GetCurrent` is a
distinct value reports an id different from its own (the situation `resolve`
is written for: `OverrideID` was not used to alias ids). -/
def PModel.goodModal {M : Type} : PModel M → Bool
  | .leaf _ _ => true
  | .lensP _ inner => PModel.goodModal inner
  | .modalSelf _ => true
  | .modal i c => (decide (c.idOf ≠ i)) && PModel.goodModal c

/-! ## Claim C1: Pop on a single-element stack -/

/-- C1 counterexample: the claim says a Pop on a single-element stack is a
protected no-op that leaves the stack non-empty. On the one-element chain
`[0]`, processing `PopMsg` succeeds and yields depth 0: `Chain.pop` only
guards against an already-empty stack, so the last element is removed. -/
theorem C1_pop_size_one_counterexample :
    (Chain.Update (C := Nat) (E := Unit) (K := Unit)
        (fun _ => none) (fun c _ => (some c, none))
        { stack := [0], name := "" } ChainMsg.popMsg).map
      (fun p => p.1.Depth) = some 0
    ∧ Chain.Depth (C := Nat) { stack := [0], name := "" } = 1 := by
  exact ⟨rfl, rfl⟩

/-- C1 amended: Pop on a single-element stack is not protected: it removes
the last element and reports size 0. The empty-stack condition is signalled
at dispatch instead: a subsequent non-structural event on the emptied stack
leaves it unchanged and returns the chain-empty error effect, and a further
Pop on the emptied stack is a no-op. -/
theorem C1_pop_single_empties_then_dispatch_errors {C E K : Type}
    (initF : C → Option K) (updF : C → E → Option C × Option K)
    (h : Chain C) (hd : h.Depth = 1) (e : E) :
    ∃ h1 : Chain C,
      Chain.Update initF updF h ChainMsg.popMsg = some (h1, none)
      ∧ h1.Depth = 0
      ∧ Chain.Update initF updF h1 (ChainMsg.other e) =
          some (h1, some ChainCmd.errorChainEmpty)
      ∧ Chain.Update initF updF h1 ChainMsg.popMsg = some (h1, none) := by
  obtain ⟨c, hc⟩ := List.length_eq_one.mp hd
  refine ⟨{ stack := [], name := h.name }, ?_, rfl, ?_, ?_⟩
  · obtain ⟨stk, nm⟩ := h
    simp only at hc
    subst hc
    rfl
  · rfl
  · rfl

/-- C1 witness: `C1_pop_single_empties_then_dispatch_errors` applied to the
concrete one-element chain `[5]` over `Nat`. -/
theorem C1_pop_single_witness :
    ∃ h1 : Chain Nat,
      Chain.Update (C := Nat) (E := Unit) (K := Unit)
          (fun _ => none) (fun c _ => (some c, none))
          { stack := [5], name := "" } ChainMsg.popMsg = some (h1, none)
      ∧ h1.Depth = 0
      ∧ Chain.Update (C := Nat) (E := Unit) (K := Unit)
          (fun _ => none) (fun c _ => (some c, none))
          h1 (ChainMsg.other ()) = some (h1, some ChainCmd.errorChainEmpty)
      ∧ Chain.Update (C := Nat) (E := Unit) (K := Unit)
          (fun _ => none) (fun c _ => (some c, none))
          h1 ChainMsg.popMsg = some (h1, none) :=
  C1_pop_single_empties_then_dispatch_errors
    (fun _ => none) (fun c _ => (some c, none))
    { stack := [5], name := "" } rfl ()

/-! ## Claim C2: Reset(absent) -/

/-- C2 counterexample: the claim says `Reset(absent)` always restores the
original seed. Seed the chain with `0`, process `ReplaceMsg 1` (depth is 1,
so the top — which is also the bottom — becomes `1`), then process
`ResetMsg` with an absent component: the result is the one-element stack
`[1]`, not the seed `[0]`. -/
theorem C2_reset_after_replace_counterexample :
    Chain.Update (C := Nat) (E := Unit) (K := Unit)
      (fun _ => none) (fun c _ => (some c, none))
      { stack := [0], name := "" } (ChainMsg.replaceMsg (some 1)) =
      some ({ stack := [1], name := "" }, none)
    ∧ Chain.Update (C := Nat) (E := Unit) (K := Unit)
      (fun _ => none) (fun c _ => (some c, none))
      { stack := [1], name := "" } (ChainMsg.resetMsg none) =
      some ({ stack := [1], name := "" }, none)
    ∧ (1 : Nat) ≠ 0 := by
  refine ⟨rfl, rfl, by decide⟩

/-- C2 amended: processing Reset with an absent component on a chain whose
stack is non-empty yields a 1-element stack whose sole element is the current
bottom element `stack[0]` — which equals the original seed only as long as
the bottom was never overwritten (by Replace or Reset at depth 1) and the
stack never became empty. On an empty stack, Reset(absent) panics (indexing
`stack[0]`), modelled by the `none` result. -/
theorem C2_reset_absent_restores_bottom {C E K : Type}
    (initF : C → Option K) (updF : C → E → Option C × Option K)
    (h : Chain C) :
    (∀ b : C, h.stack.head? = some b →
      Chain.Update initF updF h (ChainMsg.resetMsg none) =
        some ({ stack := [b], name := h.name },
          (initF b).map ChainCmd.fromAtom))
    ∧ (h.stack = [] →
      Chain.Update initF updF h (ChainMsg.resetMsg none) = none) := by
  obtain ⟨stk, nm⟩ := h
  constructor
  · intro b hb
    cases stk with
    | nil => simp at hb
    | cons x xs =>
      simp only [List.head?_cons, Option.some.injEq] at hb
      subst hb
      rfl
  · rintro rfl
    rfl

/-! ## Claim C3: routing to Skip or to an absent slot -/

/-- C3 counterexample: the claim says that when the targeted slot is absent
`Route` returns a non-nil "no active slot" diagnostic effect. On the router
with `target = SlotT` and `SlotT` nil, `Route` leaves the state unchanged but
returns a nil command (the missing slot is only logged), refuting the claim:
only the default branch (Skip or an unknown slot) broadcasts a diagnostic. -/
theorem C3_absent_slot_nil_effect_counterexample :
    Router.Route (A := Nat) (B := Nat) (E := Unit) (K := Nat)
      (fun a _ => (a + 1, none)) (fun b _ => (b + 1, none)) 99
      { SlotT := none, SlotU := some 5, target := Slot.t } () =
      ({ SlotT := none, SlotU := some 5, target := Slot.t }, none) := by
  rfl

/-- C3 amended: if the target is Skip (or any slot other than T and U),
`Route` returns the non-nil unknown-slot broadcast effect and leaves both
slots and the target unchanged; if the target selects slot T (resp. U) but
that slot is absent, `Route` leaves both slots and the target unchanged and
returns a nil effect (the missing-slot condition is only logged, not
surfaced as an effect). -/
theorem C3_route_skip_or_absent_slot {A B E K : Type}
    (updT : A → E → A × Option K) (updU : B → E → B × Option K)
    (bcast : K) (r : Router A B) (e : E) :
    ((r.target = Slot.skip ∨ r.target = Slot.v) →
      Router.Route updT updU bcast r e = (r, some bcast))
    ∧ (r.target = Slot.t → r.SlotT = none →
      Router.Route updT updU bcast r e = (r, none))
    ∧ (r.target = Slot.u → r.SlotU = none →
      Router.Route updT updU bcast r e = (r, none)) := by
  obtain ⟨st, su, tg⟩ := r
  refine ⟨?_, ?_, ?_⟩
  · rintro (rfl | rfl) <;> rfl
  · rintro rfl rfl
    rfl
  · rintro rfl rfl
    rfl

/-! ## Claim C4: Auto precedence -/

/-- C4: for all four (primary-present, override-present) combinations,
`Auto.Active` returns Override iff the override slot is present; when the
override is absent it returns Primary iff the primary is present; when both
are absent it returns Invalid. -/
theorem C4_auto_active_precedence {T : Type} (a : Auto T) :
    (a.Active = AutoSlot.slotOverride ↔ a.override.isSome = true)
    ∧ (a.override = none →
      (a.Active = AutoSlot.slotPrimary ↔ a.primary.isSome = true))
    ∧ (a.override = none → a.primary = none →
      a.Active = AutoSlot.slotInvalid) := by
  obtain ⟨p, o⟩ := a
  cases o <;> cases p <;> simp [Auto.Active]

/-! ## Claim C5: router target isolation -/

/-- C5: when the target is slot T, `Route` returns slot U unchanged and the
result does not depend on slot U's update function at all (so that update is
never invoked), and symmetrically for target U. -/
theorem C5_router_target_isolation {A B E K : Type}
    (updT updT2 : A → E → A × Option K) (updU updU2 : B → E → B × Option K)
    (bcast : K) (r : Router A B) (e : E) :
    (r.target = Slot.t →
      (Router.Route updT updU bcast r e).1.SlotU = r.SlotU
      ∧ (Router.Route updT updU bcast r e).1.target = r.target
      ∧ Router.Route updT updU bcast r e = Router.Route updT updU2 bcast r e)
    ∧ (r.target = Slot.u →
      (Router.Route updT updU bcast r e).1.SlotT = r.SlotT
      ∧ (Router.Route updT updU bcast r e).1.target = r.target
      ∧ Router.Route updT updU bcast r e = Router.Route updT2 updU bcast r e) := by
  obtain ⟨st, su, tg⟩ := r
  constructor
  · rintro rfl
    cases st <;> exact ⟨rfl, rfl, rfl⟩
  · rintro rfl
    cases su <;> exact ⟨rfl, rfl, rfl⟩

/-! ## Claim C6: lens transparency -/

/-- C6: for every lens state (hence every choice of hook functions, set or
unset) `Lens.View` returns exactly the wrapped model's rendering, and
`Lens.Update` stores exactly the wrapped model's next state and returns
exactly the wrapped model's command; the right-hand sides mention no hook, so
hooks never alter the observable output or the returned effect. -/
theorem C6_lens_transparency {M K E Ω : Type}
    (upd : M → LensMsg E → M × Option K) (view : M → String) (res : M → M)
    (l : Lens M K E Ω) (msg : LensMsg E) :
    (Lens.View view res l).1 = view l.Model
    ∧ (Lens.Update upd res l msg).1.Model = (upd l.Model msg).1
    ∧ (Lens.Update upd res l msg).2.1 = (upd l.Model msg).2 := by
  refine ⟨rfl, ?_, ?_⟩ <;> cases msg <;> rfl

/-! ## Claim C7: Push then Pop is the identity -/

/-- C7: pushing a present component `c` and then popping returns a stack
structurally identical to the one before the push, and the popped value is
`c`; at the `Update` level, `PushMsg (some c)` followed by `PopMsg` succeeds
and restores the chain exactly. -/
theorem C7_push_pop_inverse {C E K : Type}
    (initF : C → Option K) (updF : C → E → Option C × Option K)
    (h : Chain C) (c : C) :
    (h.push (some c)).pop = (h, some c)
    ∧ ∃ cmd1 cmd2 : Option (ChainCmd K),
      Chain.Update initF updF h (ChainMsg.pushMsg (some c)) =
        some (h.push (some c), cmd1)
      ∧ Chain.Update initF updF (h.push (some c)) ChainMsg.popMsg =
        some (h, cmd2) := by
  have hpp : (h.push (some c)).pop = (h, some c) := by
    simp only [Chain.push, Chain.pop, List.isEmpty_eq_true, List.append_ne_nil_of_right_ne_nil,
      List.cons_ne_self, if_neg, List.dropLast_concat, List.getLast?_concat]
    simp
  have h1 : (h.push (some c)).pop.1 = h := by rw [hpp]
  refine ⟨hpp, (OptionalInit initF (h.push (some c)).Active).map ChainCmd.fromAtom,
    (OptionalInit initF h.Active).map ChainCmd.fromAtom, rfl, ?_⟩
  show some ((h.push (some c)).pop.1,
    (OptionalInit initF ((h.push (some c)).pop.1).Active).map ChainCmd.fromAtom) = _
  rw [h1]

/-! ## Claim C8: non-structural events replace the top, absent result is a no-op -/

/-- C8: with a present active component, `Update` forwards a non-structural
event to it and replaces the top with the returned next component via
`Chain.replace`; when that next component is absent the replace is a no-op,
so the stack's element sequence and depth are unchanged — this path never
removes the top. -/
theorem C8_event_forwards_and_replaces_top {C E K : Type}
    (initF : C → Option K) (updF : C → E → Option C × Option K)
    (h : Chain C) (cur : C) (hact : h.Active = some cur) (e : E) :
    Chain.Update initF updF h (ChainMsg.other e) =
      some (h.replace (updF cur e).1, ((updF cur e).2).map ChainCmd.fromAtom)
    ∧ ((updF cur e).1 = none →
      (h.replace (updF cur e).1).stack = h.stack
      ∧ (h.replace (updF cur e).1).Depth = h.Depth) := by
  constructor
  · simp only [Chain.Update, hact]
  · intro hnone
    rw [hnone]
    exact ⟨rfl, rfl⟩

/-- C8 witness: `C8_event_forwards_and_replaces_top` applied to the concrete
chain `[3]` over `Nat` with an update function returning an absent next
component; the replace is then a no-op, so the chain comes back unchanged
with a nil command. -/
theorem C8_event_forwards_witness :
    Chain.Update (C := Nat) (E := Unit) (K := Unit)
      (fun _ => none) (fun _ _ => (none, none))
      { stack := [3], name := "" } (ChainMsg.other ()) =
      some ({ stack := [3], name := "" }, none) :=
  ((C8_event_forwards_and_replaces_top (C := Nat) (E := Unit) (K := Unit)
    (fun _ => none) (fun _ _ => (none, none))
    { stack := [3], name := "" } 3 rfl ()).1).trans (by rfl)

/-! ## Claim C10: Peek is total -/

/-- C10: `Peek` is total over all integers: when `0 ≤ n < Depth` it returns
the component `n` positions below the top (the element at index `n` of the
reversed stack), and for every other `n` — negative or at least the depth —
it returns the absent value, never failing on an out-of-bounds index. -/
theorem C10_peek_total {C : Type} (h : Chain C) (n : Int) :
    (0 ≤ n → n < (h.Depth : Int) →
      ∃ x : C, h.Peek n = some x ∧ h.stack.reverse[n.toNat]? = some x)
    ∧ (¬ (0 ≤ n ∧ n < (h.Depth : Int)) → h.Peek n = none) := by
  constructor
  · intro h0 hlt
    have hn : n.toNat < h.stack.length := by
      have : n < (h.stack.length : Int) := hlt
      omega
    have hidx : h.stack.length - 1 - n.toNat < h.stack.length := by omega
    refine ⟨h.stack[h.stack.length - 1 - n.toNat], ?_, ?_⟩
    · have hcond : ¬ (n < 0 ∨ (h.stack.length : Int) ≤ n) := by
        push_neg
        exact ⟨h0, hlt⟩
      rw [Chain.Peek, if_neg hcond]
      exact List.getElem?_eq_getElem hidx
    · rw [List.getElem?_reverse (by simpa using hn)]
      exact List.getElem?_eq_getElem hidx
  · intro hout
    simp only [Chain.Depth] at hout
    have hcond : n < 0 ∨ (h.stack.length : Int) ≤ n := by
      rcases not_and_or.mp hout with h1 | h2
      · exact Or.inl (by omega)
      · exact Or.inr (by omega)
    rw [Chain.Peek, if_pos hcond]

/-! ## Claim C9: resolve idempotence -/

theorem TModel.resolve_atom_shape {M : Type} (x : TModel M) :
    TModel.resolve_atom x = TModel.nilModel
    ∨ ∃ m : M, TModel.resolve_atom x = TModel.leaf m := by
  induction x using TModel.resolve_atom.induct with
  | case1 stk ih =>
    rw [TModel.resolve_atom]
    exact ih
  | case2 inner ih =>
    rw [TModel.resolve_atom]
    exact ih
  | case3 inner ih =>
    rw [TModel.resolve_atom]
    exact ih
  | case4 m =>
    right
    exact ⟨m, by rw [TModel.resolve_atom]⟩
  | case5 =>
    left
    rw [TModel.resolve_atom]

theorem PModel.resolve_shape {M : Type} (x : PModel M)
    (hx : PModel.goodModal x = true) :
    (∃ i : Nat, PModel.resolve x = PModel.modalSelf i)
    ∨ ∃ i : Nat, ∃ m : M, PModel.resolve x = PModel.leaf i m := by
  induction x with
  | leaf i m =>
    right
    exact ⟨i, m, rfl⟩
  | lensP i inner ih =>
    rw [PModel.resolve]
    exact ih (by simpa [PModel.goodModal] using hx)
  | modalSelf i =>
    left
    exact ⟨i, rfl⟩
  | modal i c ih =>
    simp only [PModel.goodModal, Bool.and_eq_true, decide_eq_true_eq] at hx
    rw [PModel.resolve, if_pos hx.1]
    exact ih hx.2

/-- C9 counterexample: the claim says `resolve(resolve(x)) == resolve(x)` for
any nesting of Lens and Modal wrappers. For a Modal with id 1 whose
`GetCurrent` returns a different value with the same id 1 — a Lens wrapping a
leaf — `resolve` stops at the Lens (`current.Id() == a.Id()` returns
`current` as is), while a second `resolve` unwraps the Lens to the leaf, so
the composite is not idempotent at this value. -/
theorem C9_resolve_modal_counterexample :
    PModel.resolve (PModel.resolve
      (PModel.modal 1 (PModel.lensP 1 (PModel.leaf 2 ())))) ≠
    PModel.resolve (PModel.modal 1 (PModel.lensP 1 (PModel.leaf 2 ()))) := by
  decide

/-- C9 amended: `resolve_atom` (the Lens/decorator/Chain unwrapping of
src/trace/lens.go) is idempotent for every value of any nesting depth; the
Modal-aware `resolve` of src/lens.go is idempotent for every value in which
each Modal whose `GetCurrent` is a distinct value has a current with a
different id (in particular for pure Lens nesting) — but not for a Modal
returning a distinct same-id wrapper, as the counterexample shows. -/
theorem C9_resolve_idempotent {M N : Type} :
    (∀ x : TModel M,
      TModel.resolve_atom (TModel.resolve_atom x) = TModel.resolve_atom x)
    ∧ (∀ x : PModel N, PModel.goodModal x = true →
      PModel.resolve (PModel.resolve x) = PModel.resolve x) := by
  constructor
  · intro x
    rcases TModel.resolve_atom_shape x with hs | ⟨m, hs⟩ <;>
      rw [hs, TModel.resolve_atom]
  · intro x hx
    rcases PModel.resolve_shape x hx with ⟨i, hs⟩ | ⟨i, m, hs⟩ <;>
      rw [hs, PModel.resolve]

end Polymer
